import Mathlib

/-!
Verification development for the one_bridge integration service.

Shallow embedding of the repository's business logic:
  * connector_api/models.py     — Product, Order, OrderItem rows
  * connector_api/serializers.py — OrderSerializer.create / update / validate_items
  * connector_api/views.py      — IntegrationViewSet.sync_products_from_1c and
                                   IntegrationViewSet.create_order_in_1c

Modelling conventions:
  * Django DecimalField values are represented by `Rat` (exact fixed-point
    decimal arithmetic embeds into the rationals; no floating point is used).
  * Nullable columns are `Option` fields; Python truthiness on strings
    (`None` and `""` are falsy) is `pyTruthyStr`.
  * The relational store is an explicit `DB` record of row lists; every
    operation is a pure function from store to store.
  * Outbound HTTP traffic is an explicit input (`RemoteOutcome`,
    `FetchOutcome`); the list of issued remote order-creation requests is
    returned alongside the result so that "exactly one remote call" facts
    are expressible.
  * The UNIQUE(product_1c_id) database constraint that can make
    `Product.objects.update_or_create` raise (caught by the generic
    `except` in the sync loop) is modelled by the conflict checks inside
    `update_or_create_product`; a caught database error increments the
    error counters exactly as in the source.
-/

/-- Order.OrderStatus choices from connector_api/models.py. -/
inductive OrderStatus where
  | NEW
  | PROCESSING
  | SHIPPED
  | DELIVERED
  | CANCELED
deriving DecidableEq, Repr

/-- Product row (connector_api/models.py).  `id` is the system-assigned
primary key; `product_1c_id` and `article` are nullable unique columns. -/
structure Product where
  id : Nat
  product_1c_id : Option String
  name : String
  article : Option String
  description : Option String
  price : Rat
  stock_quantity : Int
deriving DecidableEq, Repr

/-- Order row (connector_api/models.py). -/
structure Order where
  id : Nat
  order_1c_id : Option String
  customer_info : Option String
  order_status : OrderStatus
  total_amount : Rat
deriving DecidableEq, Repr

/-- OrderItem row (connector_api/models.py); `order` and `product` are the
foreign-key ids. -/
structure OrderItem where
  id : Nat
  order : Nat
  product : Nat
  quantity : Int
  price_per_item : Rat
deriving DecidableEq, Repr

/-- OrderItem.total_price property: quantity × unit-price snapshot. -/
def OrderItem.total_price (it : OrderItem) : Rat :=
  (it.quantity : Rat) * it.price_per_item

/-- The relational store: the three tables the integration code touches. -/
structure DB where
  products : List Product
  orders : List Order
  order_items : List OrderItem
deriving DecidableEq, Repr

/-- The OrderItem rows belonging to one order (`instance.items.all()`). -/
def itemsOf (db : DB) (oid : Nat) : List OrderItem :=
  db.order_items.filter (fun it => it.order == oid)

/-- Referential integrity of the item table: every OrderItem row points at
an existing Order row (enforced by the ORM foreign key). -/
def DBInv (db : DB) : Prop :=
  ∀ it ∈ db.order_items, ∃ o ∈ db.orders, o.id = it.order

/-- Fresh primary key for a new Order row. -/
def freshOrderId (db : DB) : Nat :=
  (db.orders.map Order.id).foldr max 0 + 1

/-- Fresh primary key for a new OrderItem row. -/
def freshItemId (db : DB) : Nat :=
  (db.order_items.map OrderItem.id).foldr max 0 + 1

/-- Python truthiness of an optional string: `None` and `""` are falsy. -/
def pyTruthyStr : Option String → Bool
  | none => false
  | some s => !(s == "")

/-- Python `a or b` on optional strings. -/
def pyOrStr (a b : Option String) : Option String :=
  if pyTruthyStr a then a else b

/-- One entry of the raw `items` list of an incoming order payload, before
validation: a product primary key, a quantity and a unit price. -/
structure RawItem where
  product : Nat
  quantity : Int
  price_per_item : Rat
deriving DecidableEq, Repr

/-- Raw order payload (`request.data`): `items` is `none` when the key is
absent from the payload. -/
structure RawOrderPayload where
  customer_info : Option String
  order_status : Option OrderStatus
  items : Option (List RawItem)
deriving DecidableEq, Repr

/-- A validated line item: DRF resolves the `product` primary key to the
Product instance (`item_data['product']` is an object after validation). -/
structure VItem where
  product : Product
  quantity : Int
  price_per_item : Rat
deriving DecidableEq, Repr

/-- `serializer.validated_data` for an order payload. -/
structure ValidatedOrder where
  customer_info : Option String
  order_status : Option OrderStatus
  items : List VItem
deriving DecidableEq, Repr

/-- Validated data for a (possibly partial) order update; `none` fields were
absent from the payload. -/
structure ValidatedUpdate where
  customer_info : Option String
  order_status : Option OrderStatus
  items : Option (List VItem)
deriving DecidableEq, Repr

/-- The distinct validation failures OrderSerializer can signal. -/
inductive VErr where
  | itemsMissing
  | productNotFound (pid : Nat)
  | negativeQuantity (pid : Nat)
  | emptyItems
  | nonPositiveQuantity (pid : Nat)
deriving DecidableEq, Repr

/-- PrimaryKeyRelatedField lookup: resolve a product id in the store. -/
def lookupProduct (db : DB) (pid : Nat) : Option Product :=
  db.products.find? (fun p => p.id == pid)

/-- Field-level validation of the raw item list, in payload order: the
referenced Product must exist and the quantity must pass the model field's
non-negativity validator; each valid item is resolved to a `VItem`. -/
def validateItems (db : DB) : List RawItem → Except VErr (List VItem)
  | [] => .ok []
  | i :: rest =>
    match lookupProduct db i.product with
    | none => .error (.productNotFound i.product)
    | some p =>
      if i.quantity < 0 then .error (.negativeQuantity i.product)
      else (validateItems db rest).map (fun tl => ⟨p, i.quantity, i.price_per_item⟩ :: tl)

/-- First item with non-positive quantity, as flagged by
OrderSerializer.validate_items (the error names the offending product). -/
def firstNonPositive : List VItem → Option VErr
  | [] => none
  | i :: rest =>
    if i.quantity ≤ 0 then some (.nonPositiveQuantity i.product.id)
    else firstNonPositive rest

/-- OrderSerializer.validate_items: the order must contain at least one
item and every quantity must be strictly positive. -/
def validate_items (items : List VItem) : Except VErr (List VItem) :=
  if items.isEmpty then .error .emptyItems
  else
    match firstNonPositive items with
    | some e => .error e
    | none => .ok items

/-- `serializer.is_valid()` for an order payload: the `items` key must be
present, each item passes field validation, then validate_items runs. -/
def runValidation (db : DB) (raw : RawOrderPayload) : Except VErr ValidatedOrder :=
  match raw.items with
  | none => .error .itemsMissing
  | some l =>
    match validateItems db l with
    | .error e => .error e
    | .ok vs =>
      match validate_items vs with
      | .error e => .error e
      | .ok vs2 => .ok ⟨raw.customer_info, raw.order_status, vs2⟩

/-- Create the OrderItem rows of an order, one per validated item, with
consecutive fresh primary keys starting at `base`. -/
def mkItems (base oid : Nat) : List VItem → List OrderItem
  | [] => []
  | i :: rest =>
    ⟨base, oid, i.product.id, i.quantity, i.price_per_item⟩ :: mkItems (base + 1) oid rest

/-- OrderSerializer.create: build the Order row, attach the externally
supplied order_1c_id when truthy, create one OrderItem per validated item,
accumulate the exact decimal sum of the items' total_price values, write it
onto the order and persist everything atomically. -/
def OrderSerializer.create (db : DB) (ctx_order_1c_id : Option String)
    (v : ValidatedOrder) : DB × Order :=
  let oid := freshOrderId db
  let base := freshItemId db
  let order0 : Order :=
    ⟨oid, none, v.customer_info, v.order_status.getD OrderStatus.NEW, 0⟩
  let order1 :=
    if pyTruthyStr ctx_order_1c_id then { order0 with order_1c_id := ctx_order_1c_id }
    else order0
  let newItems := mkItems base oid v.items
  let total := (newItems.map OrderItem.total_price).sum
  let order2 := { order1 with total_amount := total }
  ({ db with orders := db.orders ++ [order2],
             order_items := db.order_items ++ newItems },
   order2)

/-- OrderSerializer.update: overwrite the fields present in the payload; if
`items` is present, delete every existing OrderItem row of the order and
create new ones exactly as in create; then recompute total_amount as the
exact sum of the current persisted items' total_price values and save. -/
def OrderSerializer.update (db : DB) (oid : Nat) (v : ValidatedUpdate) :
    DB × Option Order :=
  match db.orders.find? (fun o => o.id == oid) with
  | none => (db, none)
  | some inst =>
    let inst1 : Order :=
      { inst with
        customer_info := match v.customer_info with
          | some c => some c
          | none => inst.customer_info,
        order_status := v.order_status.getD inst.order_status }
    let db1 :=
      match v.items with
      | none => db
      | some l =>
        let remaining := db.order_items.filter (fun it => !(it.order == oid))
        { db with order_items := remaining ++ mkItems (freshItemId db) oid l }
    let total := ((itemsOf db1 oid).map OrderItem.total_price).sum
    let inst2 := { inst1 with total_amount := total }
    ({ db1 with orders := db1.orders.map (fun o => if o.id == oid then inst2 else o) },
     some inst2)

/-- One entry of the `items` array sent to the remote system
(`items_payload_1c` in create_order_in_1c). -/
structure Item1C where
  product_id_1c : String
  quantity : Int
  price : Rat
deriving DecidableEq, Repr

/-- The POST body sent to the remote order-creation endpoint. -/
structure Order1CPayload where
  customer_info : Option String
  items : List Item1C
deriving DecidableEq, Repr

/-- Outcome of the remote order-creation HTTP call, as observed by the
view: a transport failure, an unparseable body, or a parsed JSON reply
`(success, order_1c_id, message)`. -/
inductive RemoteOutcome where
  | timeout
  | requestErr (m : String)
  | badJson (m : String)
  | reply (success : Bool) (order_1c_id : Option String) (message : Option String)
deriving DecidableEq, Repr

/-- The distinct HTTP responses create_order_in_1c can produce. -/
inductive ViewResult where
  | validationError (e : VErr)
  | prepareError (productName : String)
  | gatewayTimeout
  | serviceUnavailable (m : String)
  | badGatewayJson (m : String)
  | remoteRejected (m : String)
  | missingOrderId
  | created (o : Order)
  | criticalError (order_1c_id : String)
deriving DecidableEq, Repr

/-- The remote correlation key of a line item's product: the 1C id when
truthy, otherwise the article (`product_1c_id or article` in the source). -/
def productIdentifier1C (p : Product) : Option String :=
  pyOrStr p.product_1c_id p.article

/-- Translate the validated items into the remote wire format; the first
product with no truthy identifier raises (`ValueError` naming the
product), aborting the preparation step. -/
def buildItems1C : List VItem → Except String (List Item1C)
  | [] => .ok []
  | i :: rest =>
    let idOpt := productIdentifier1C i.product
    if pyTruthyStr idOpt then
      match buildItems1C rest with
      | .error m => .error m
      | .ok tl => .ok (⟨idOpt.getD "", i.quantity, i.price_per_item⟩ :: tl)
    else .error i.product.name

/-- IntegrationViewSet.create_order_in_1c: validate, prepare the remote
payload, issue the remote create, branch on the reply, and persist locally
only after remote acceptance with an assigned id.  `persistFails` models a
store failure inside the final save (the transaction rolls back).  The
third component of the result is the list of remote order-creation
requests actually issued. -/
def create_order_in_1c (db : DB) (raw : RawOrderPayload) (remote : RemoteOutcome)
    (persistFails : Bool) : ViewResult × DB × List Order1CPayload :=
  match runValidation db raw with
  | .error e => (.validationError e, db, [])
  | .ok v =>
    match buildItems1C v.items with
    | .error productName => (.prepareError productName, db, [])
    | .ok items1c =>
      let payload1c : Order1CPayload := ⟨v.customer_info, items1c⟩
      match remote with
      | .timeout => (.gatewayTimeout, db, [payload1c])
      | .requestErr m => (.serviceUnavailable m, db, [payload1c])
      | .badJson m => (.badGatewayJson m, db, [payload1c])
      | .reply success oid msg =>
        if !success then
          (.remoteRejected (msg.getD "Неизвестная ошибка от 1С"), db, [payload1c])
        else if !(pyTruthyStr oid) then
          (.missingOrderId, db, [payload1c])
        else
          let x := oid.getD ""
          if persistFails then (.criticalError x, db, [payload1c])
          else
            let saved := OrderSerializer.create db (some x) v
            (.created saved.2, saved.1, [payload1c])

/-- A product record as fetched from the remote catalog: a JSON object in
which any key may be missing. -/
structure Raw1CProduct where
  id : Option String
  name : Option String
  article : Option String
  price : Option Rat
  stock : Option Int
  description : Option String
deriving DecidableEq, Repr

/-- The remote record's external id (defaulted, used after the presence
check). -/
def Raw1CProduct.rid (r : Raw1CProduct) : String := r.id.getD ""

/-- The remote record's article (defaulted, used after the presence
check). -/
def Raw1CProduct.art (r : Raw1CProduct) : String := r.article.getD ""

/-- The remote record's name (defaulted). -/
def Raw1CProduct.nameD (r : Raw1CProduct) : String := r.name.getD ""

/-- The remote record's price (defaulted). -/
def Raw1CProduct.priceD (r : Raw1CProduct) : Rat := r.price.getD 0

/-- The remote record's stock (defaulted). -/
def Raw1CProduct.stockD (r : Raw1CProduct) : Int := r.stock.getD 0

/-- The remote record's description with the source's `''` default. -/
def Raw1CProduct.descD (r : Raw1CProduct) : String := r.description.getD ""

/-- `all(k in prod_1c for k in required_keys)`: id, name, article, price
and stock must be present. -/
def requiredPresent (r : Raw1CProduct) : Bool :=
  r.id.isSome && r.name.isSome && r.article.isSome && r.price.isSome && r.stock.isSome

/-- The sync report accumulated by sync_products_from_1c. -/
structure SyncReport where
  created : Nat
  updated : Nat
  errors : Nat
  error_list : List String
deriving DecidableEq, Repr

/-- The empty report the sync starts from. -/
def emptyReport : SyncReport := ⟨0, 0, 0, []⟩

/-- The lookup predicate of `update_or_create(article=...)`. -/
def productMatches (a : String) (p : Product) : Bool :=
  p.article == some a

/-- The `defaults` dict applied to a matched product: name, price, stock,
description, external id and article are all overwritten. -/
def applyRemoteFields (i n a : String) (pr : Rat) (st : Int) (d : String)
    (p : Product) : Product :=
  { p with name := n, price := pr, stock_quantity := st,
           description := some d, product_1c_id := some i, article := some a }

/-- A newly created product built entirely from the remote record. -/
def mkRemoteProduct (pid : Nat) (i n a : String) (pr : Rat) (st : Int) (d : String) :
    Product :=
  ⟨pid, some i, n, some a, some d, pr, st⟩

/-- Fresh primary key for a product created by the sync. -/
def freshProductId (store : List Product) : Nat :=
  (store.map Product.id).foldr max 0 + 1

/-- Update the first product whose article matches, leaving the rest of
the table unchanged. -/
def updateFirst (a : String) (f : Product → Product) : List Product → List Product
  | [] => []
  | p :: ps => if productMatches a p then f p :: ps else p :: updateFirst a f ps

/-- UNIQUE(product_1c_id) violation test for the update branch: some row
outside the matched article would end up sharing the external id. -/
def idConflictOnUpdate (store : List Product) (a i : String) : Bool :=
  store.any (fun q => q.product_1c_id == some i && !(q.article == some a))

/-- UNIQUE(product_1c_id) violation test for the create branch. -/
def idTaken (store : List Product) (i : String) : Bool :=
  store.any (fun q => q.product_1c_id == some i)

/-- Product.objects.update_or_create(article=..., defaults=...): find the
product by article and overwrite it, or create a new one; a unique
constraint violation on product_1c_id surfaces as a database error.
Returns the new table and the created flag. -/
def update_or_create_product (store : List Product) (i n a : String) (pr : Rat)
    (st : Int) (d : String) : Except Unit (List Product × Bool) :=
  if store.any (productMatches a) then
    if idConflictOnUpdate store a i then .error ()
    else .ok (updateFirst a (applyRemoteFields i n a pr st d) store, false)
  else
    if idTaken store i then .error ()
    else .ok (store ++ [mkRemoteProduct (freshProductId store) i n a pr st d], true)

/-- Error message recorded for a record with missing required fields. -/
def skipMsg (r : Raw1CProduct) : String :=
  "Неполные данные для товара ID=" ++ r.id.getD "N/A"

/-- Error message recorded when processing a record raises (database
error caught by the generic except clause). -/
def procErrMsg (r : Raw1CProduct) : String :=
  "Ошибка обработки товара ID=" ++ r.id.getD "N/A" ++ ": IntegrityError"

/-- Append a missing-fields error entry to a report. -/
def addSkipErr (rep : SyncReport) (r : Raw1CProduct) : SyncReport :=
  { rep with errors := rep.errors + 1, error_list := rep.error_list ++ [skipMsg r] }

/-- The body of the per-record loop of sync_products_from_1c: skip and
record records with missing required fields, otherwise upsert by article
and bump the created/updated counter; a caught processing error bumps the
error counters and leaves the table unchanged. -/
def syncStep (acc : List Product × SyncReport) (r : Raw1CProduct) :
    List Product × SyncReport :=
  let store := acc.1
  let rep := acc.2
  if requiredPresent r then
    match update_or_create_product store r.rid r.nameD r.art r.priceD r.stockD r.descD with
    | .error _ =>
      (store, { rep with errors := rep.errors + 1,
                         error_list := rep.error_list ++ [procErrMsg r] })
    | .ok (store2, created) =>
      if created then (store2, { rep with created := rep.created + 1 })
      else (store2, { rep with updated := rep.updated + 1 })
  else (store, addSkipErr rep r)

/-- The whole per-record loop over a fetched product list. -/
def runSync (records : List Raw1CProduct) (store : List Product) :
    List Product × SyncReport :=
  List.foldl syncStep (store, emptyReport) records

/-- Outcome of the catalog fetch (step 1 of sync_products_from_1c). -/
inductive FetchOutcome where
  | timeout
  | requestErr (m : String)
  | badJson (m : String)
  | ok (records : List Raw1CProduct)
deriving DecidableEq, Repr

/-- The distinct HTTP responses sync_products_from_1c can produce. -/
inductive SyncResponse where
  | fetchTimeout
  | fetchUnavailable (m : String)
  | fetchBadGateway (m : String)
  | success (report : SyncReport)
deriving DecidableEq, Repr

/-- IntegrationViewSet.sync_products_from_1c: a transport failure of the
single fetch aborts the sync with nothing processed; otherwise the whole
batch is processed and a success report is always returned. -/
def sync_products_from_1c (fetch : FetchOutcome) (store : List Product) :
    SyncResponse × List Product :=
  match fetch with
  | .timeout => (.fetchTimeout, store)
  | .requestErr m => (.fetchUnavailable m, store)
  | .badJson m => (.fetchBadGateway m, store)
  | .ok records =>
    let out := runSync records store
    (.success out.2, out.1)

/-- The database invariant that the UNIQUE(article) constraint maintains:
no two rows share a present article value. -/
def storeArticlesUnique (store : List Product) : Prop :=
  (store.map Product.article).Pairwise (fun x y => x.isSome → x ≠ y)

/-! ### Sample data used by the witnesses -/

/-- A sample catalog row with both identifiers present. -/
def sampleProduct : Product := ⟨1, some "P1C", "Tovar", some "ART", none, 10, 3⟩

/-- A sample store holding just the sample product. -/
def sampleDB : DB := ⟨[sampleProduct], [], []⟩

/-- A sample validated line item: two units at price 10. -/
def sampleVItem : VItem := ⟨sampleProduct, 2, 10⟩

/-- A sample validated order payload. -/
def sampleVOrder : ValidatedOrder := ⟨some "cust", none, [sampleVItem]⟩

/-- A sample raw order payload that validates to `sampleVOrder`. -/
def sampleRaw : RawOrderPayload := ⟨some "cust", none, some [⟨1, 2, 10⟩]⟩

/-- A catalog row used by the sync counterexample: external id "X",
article "A". -/
def prodC6 : Product := ⟨1, some "X", "Prod", some "A", none, 10, 5⟩

/-- A remote record with a fresh external id "Y" but the existing
article "A". -/
def recC6 : Raw1CProduct := ⟨some "Y", some "NewName", some "A", some 20, some 7, none⟩

/-- A well-formed remote record (article "A"). -/
def recW1 : Raw1CProduct := ⟨some "X", some "N1", some "A", some 10, some 5, none⟩

/-- A second well-formed remote record (article "B"). -/
def recW2 : Raw1CProduct := ⟨some "Y", some "N2", some "B", some 20, some 7, none⟩

/-- A remote record with the required `price` key missing. -/
def badRecW : Raw1CProduct := ⟨some "Z", some "NoPrice", some "B", none, some 1, none⟩

/-- A local product matched by no sample remote record. -/
def keepProd : Product := ⟨5, some "Q", "Keep", some "ZZ", none, 3, 1⟩

/-! ### Helper lemmas -/

theorem le_foldr_max (l : List Nat) (x : Nat) (hx : x ∈ l) : x ≤ l.foldr max 0 := by
  induction l with
  | nil => cases hx
  | cons a t ih =>
    rcases List.mem_cons.1 hx with rfl | h
    · exact le_max_left _ _
    · exact le_trans (ih h) (le_max_right _ _)

theorem order_id_lt_fresh (db : DB) (o : Order) (ho : o ∈ db.orders) :
    o.id < freshOrderId db := by
  have h := le_foldr_max (db.orders.map Order.id) o.id (List.mem_map_of_mem _ ho)
  exact Nat.lt_succ_of_le h

theorem item_id_lt_fresh (db : DB) (it : OrderItem) (hi : it ∈ db.order_items) :
    it.id < freshItemId db := by
  have h := le_foldr_max (db.order_items.map OrderItem.id) it.id (List.mem_map_of_mem _ hi)
  exact Nat.lt_succ_of_le h

theorem mkItems_length (base oid : Nat) (l : List VItem) :
    (mkItems base oid l).length = l.length := by
  induction l generalizing base with
  | nil => rfl
  | cons i t ih => simp [mkItems, ih]

theorem mkItems_order (base oid : Nat) (l : List VItem) :
    ∀ it ∈ mkItems base oid l, it.order = oid := by
  induction l generalizing base with
  | nil => intro it h; cases h
  | cons i t ih =>
    intro it h
    rcases List.mem_cons.1 h with rfl | h2
    · rfl
    · exact ih (base + 1) it h2

theorem mkItems_id_ge (base oid : Nat) (l : List VItem) :
    ∀ it ∈ mkItems base oid l, base ≤ it.id := by
  induction l generalizing base with
  | nil => intro it h; cases h
  | cons i t ih =>
    intro it h
    rcases List.mem_cons.1 h with rfl | h2
    · exact le_refl _
    · exact le_trans (Nat.le_succ _) (ih (base + 1) it h2)

theorem mkItems_map_total (base oid : Nat) (l : List VItem) :
    (mkItems base oid l).map OrderItem.total_price
      = l.map (fun i => (i.quantity : Rat) * i.price_per_item) := by
  induction l generalizing base with
  | nil => rfl
  | cons i t ih => simp [mkItems, OrderItem.total_price, ih]

theorem filter_all_false {α : Type} (p : α → Bool) (l : List α)
    (h : ∀ a ∈ l, p a = false) : l.filter p = [] := by
  induction l with
  | nil => rfl
  | cons a t ih =>
    have ha := h a (List.mem_cons_self a t)
    have ht := ih (fun b hb => h b (List.mem_cons_of_mem a hb))
    simp [List.filter_cons, ha, ht]

theorem filter_all_true {α : Type} (p : α → Bool) (l : List α)
    (h : ∀ a ∈ l, p a = true) : l.filter p = l := by
  induction l with
  | nil => rfl
  | cons a t ih =>
    have ha := h a (List.mem_cons_self a t)
    have ht := ih (fun b hb => h b (List.mem_cons_of_mem a hb))
    simp [List.filter_cons, ha, ht]

/-- The order row built by OrderSerializer.create carries the fresh id. -/
theorem create_snd_id (db : DB) (ctx : Option String) (v : ValidatedOrder) :
    (OrderSerializer.create db ctx v).2.id = freshOrderId db := by
  unfold OrderSerializer.create
  split <;> rfl

/-- After OrderSerializer.create, the item rows of the new order are
exactly the freshly created ones. -/
theorem itemsOf_create (db : DB) (ctx : Option String) (v : ValidatedOrder)
    (hdb : DBInv db) :
    itemsOf (OrderSerializer.create db ctx v).1 (OrderSerializer.create db ctx v).2.id
      = mkItems (freshItemId db) (freshOrderId db) v.items := by
  have hid := create_snd_id db ctx v
  have hold : ∀ it ∈ db.order_items, (it.order == freshOrderId db) = false := by
    intro it hi
    rcases hdb it hi with ⟨o, ho, hoid⟩
    have : o.id < freshOrderId db := order_id_lt_fresh db o ho
    rw [hoid] at this
    simp [Nat.ne_of_lt this]
  have hnew : ∀ it ∈ mkItems (freshItemId db) (freshOrderId db) v.items,
      (it.order == freshOrderId db) = true := by
    intro it hi
    simp [mkItems_order _ _ _ it hi]
  have hfst : (OrderSerializer.create db ctx v).1.order_items
      = db.order_items ++ mkItems (freshItemId db) (freshOrderId db) v.items := by
    unfold OrderSerializer.create
    split <;> rfl
  unfold itemsOf
  rw [hfst, hid, List.filter_append, filter_all_false _ _ hold,
      filter_all_true _ _ hnew, List.nil_append]

/-- The persisted total of OrderSerializer.create is the exact decimal sum
of the created items' line totals. -/
theorem create_total_eq (db : DB) (ctx : Option String) (v : ValidatedOrder) :
    (OrderSerializer.create db ctx v).2.total_amount
      = ((mkItems (freshItemId db) (freshOrderId db) v.items).map OrderItem.total_price).sum := by
  unfold OrderSerializer.create
  split <;> rfl

/-- The new order row is appended to the orders table. -/
theorem create_mem_orders (db : DB) (ctx : Option String) (v : ValidatedOrder) :
    (OrderSerializer.create db ctx v).2 ∈ (OrderSerializer.create db ctx v).1.orders := by
  unfold OrderSerializer.create
  split <;> simp

theorem validateItems_ok_quantities (db : DB) :
    ∀ (l : List RawItem) (vs : List VItem), validateItems db l = .ok vs →
      vs.map VItem.quantity = l.map RawItem.quantity := by
  intro l
  induction l with
  | nil =>
    intro vs h
    simp [validateItems] at h
    subst h
    rfl
  | cons i t ih =>
    intro vs h
    simp only [validateItems] at h
    cases hl : lookupProduct db i.product with
    | none => rw [hl] at h; cases h
    | some p =>
      rw [hl] at h
      dsimp only at h
      by_cases hq : i.quantity < 0
      · simp [hq] at h
      · rw [if_neg hq] at h
        cases ht : validateItems db t with
        | error e => rw [ht] at h; simp [Except.map] at h
        | ok tl =>
          rw [ht] at h
          simp only [Except.map] at h
          cases h
          simp [ih tl ht]

theorem validateItems_error_shape (db : DB) :
    ∀ (l : List RawItem) (e : VErr), validateItems db l = .error e →
      ∃ pid, e = .productNotFound pid ∨ e = .negativeQuantity pid := by
  intro l
  induction l with
  | nil => intro e h; simp [validateItems] at h
  | cons i t ih =>
    intro e h
    simp only [validateItems] at h
    cases hl : lookupProduct db i.product with
    | none =>
      rw [hl] at h
      cases h
      exact ⟨i.product, Or.inl rfl⟩
    | some p =>
      rw [hl] at h
      dsimp only at h
      by_cases hq : i.quantity < 0
      · rw [if_pos hq] at h
        cases h
        exact ⟨i.product, Or.inr rfl⟩
      · rw [if_neg hq] at h
        cases ht : validateItems db t with
        | error e2 =>
          rw [ht] at h
          simp only [Except.map, Except.error.injEq] at h
          subst h
          exact ih e2 ht
        | ok tl => rw [ht] at h; simp [Except.map] at h

theorem firstNonPositive_some_of_exists :
    ∀ (vs : List VItem), (∃ v ∈ vs, v.quantity ≤ 0) →
      ∃ pid, firstNonPositive vs = some (VErr.nonPositiveQuantity pid) := by
  intro vs
  induction vs with
  | nil => rintro ⟨v, hv, _⟩; cases hv
  | cons a t ih =>
    rintro ⟨v, hv, hq⟩
    by_cases ha : a.quantity ≤ 0
    · exact ⟨a.product.id, by simp [firstNonPositive, ha]⟩
    · rcases List.mem_cons.1 hv with rfl | hmem
      · exact absurd hq ha
      · rcases ih ⟨v, hmem, hq⟩ with ⟨pid, hpid⟩
        exact ⟨pid, by simp [firstNonPositive, ha, hpid]⟩

theorem buildItems1C_error_of_exists :
    ∀ (items : List VItem),
      (∃ i ∈ items, pyTruthyStr (productIdentifier1C i.product) = false) →
      ∃ nm, buildItems1C items = .error nm := by
  intro items
  induction items with
  | nil => rintro ⟨i, hi, _⟩; cases hi
  | cons a t ih =>
    rintro ⟨i, hi, hf⟩
    by_cases ha : pyTruthyStr (productIdentifier1C a.product) = true
    · rcases List.mem_cons.1 hi with rfl | hmem
      · rw [ha] at hf; cases hf
      · rcases ih ⟨i, hmem, hf⟩ with ⟨nm, hnm⟩
        exact ⟨nm, by simp [buildItems1C, ha, hnm]⟩
    · have ha2 : pyTruthyStr (productIdentifier1C a.product) = false :=
        Bool.eq_false_iff.mpr ha
      exact ⟨a.product.name, by simp [buildItems1C, ha2]⟩

theorem buildItems1C_ok_of_all :
    ∀ (items : List VItem),
      (∀ i ∈ items, pyTruthyStr (productIdentifier1C i.product) = true) →
      buildItems1C items
        = .ok (items.map (fun i =>
            ⟨(productIdentifier1C i.product).getD "", i.quantity, i.price_per_item⟩)) := by
  intro items
  induction items with
  | nil => intro _; rfl
  | cons a t ih =>
    intro h
    have ha := h a (List.mem_cons_self a t)
    have ht := ih (fun i hi => h i (List.mem_cons_of_mem a hi))
    simp [buildItems1C, ha, ht]

/-- With fixed successful validation and payload preparation, every remote
outcome leads to exactly one issued remote order-creation request. -/
theorem sent_requests_eq (db : DB) (raw : RawOrderPayload) (v : ValidatedOrder)
    (its : List Item1C) (remote : RemoteOutcome) (pf : Bool)
    (hv : runValidation db raw = .ok v) (hb : buildItems1C v.items = .ok its) :
    (create_order_in_1c db raw remote pf).2.2 = [⟨v.customer_info, its⟩] := by
  cases remote with
  | timeout => simp [create_order_in_1c, hv, hb]
  | requestErr m => simp [create_order_in_1c, hv, hb]
  | badJson m => simp [create_order_in_1c, hv, hb]
  | reply s oid msg =>
    simp only [create_order_in_1c, hv, hb]
    by_cases hs : s
    · subst hs
      by_cases ho : pyTruthyStr oid = true
      · by_cases hpf : pf <;> simp [ho, hpf]
      · simp [Bool.eq_false_iff.mpr ho]
    · simp [Bool.eq_false_iff.mpr hs]

/-! ### Claims about Remote Order Submission and the Order Assembler -/

/-- Claim C1: when the remote order-creation call succeeds with an assigned
order identifier but the subsequent local persistence step fails, the flow
returns the distinguished critical-inconsistency result carrying the
remote-assigned identifier, the store is left unchanged (rolled back), the
result is distinct from every validation-error and remote-rejection result,
and exactly one remote create request was issued (no retry). -/
theorem claim_C1_critical_inconsistency (db : DB) (raw : RawOrderPayload)
    (v : ValidatedOrder) (its : List Item1C) (x : String) (msg : Option String)
    (hv : runValidation db raw = .ok v) (hb : buildItems1C v.items = .ok its)
    (hx : x ≠ "") :
    create_order_in_1c db raw (.reply true (some x) msg) true
      = (.criticalError x, db, [⟨v.customer_info, its⟩]) ∧
    (∀ e, ViewResult.criticalError x ≠ .validationError e) ∧
    (∀ m, ViewResult.criticalError x ≠ .remoteRejected m) ∧
    (create_order_in_1c db raw (.reply true (some x) msg) true).2.2.length = 1 := by
  have htr : pyTruthyStr (some x) = true := by simp [pyTruthyStr, hx]
  have heq : create_order_in_1c db raw (.reply true (some x) msg) true
      = (.criticalError x, db, [⟨v.customer_info, its⟩]) := by
    simp [create_order_in_1c, hv, hb, htr]
  refine ⟨heq, fun e h => ViewResult.noConfusion h,
         fun m h => ViewResult.noConfusion h, by rw [heq]; rfl⟩

/-- Witness for C1 at a concrete store, payload and remote reply. -/
theorem claim_C1_witness :
    create_order_in_1c sampleDB sampleRaw (.reply true (some "X") (some "ok")) true
      = (.criticalError "X", sampleDB,
         [⟨some "cust", [⟨"P1C", 2, 10⟩]⟩]) :=
  (claim_C1_critical_inconsistency sampleDB sampleRaw sampleVOrder
    [⟨"P1C", 2, 10⟩] "X" (some "ok") rfl rfl (by decide)).1

/-- Claim C2: a remote reply with success=false produces a rejection
carrying the remote-supplied message and creates no local Order or
OrderItem row; a reply with success=true but no truthy order_1c_id
produces the missing-identifier error and also creates nothing. -/
theorem claim_C2_remote_rejection (db : DB) (raw : RawOrderPayload)
    (v : ValidatedOrder) (its : List Item1C) (pf : Bool)
    (m : String) (oidA oidB : Option String) (msgB : Option String)
    (hv : runValidation db raw = .ok v) (hb : buildItems1C v.items = .ok its) :
    (create_order_in_1c db raw (.reply false oidA (some m)) pf
       = (.remoteRejected m, db, [⟨v.customer_info, its⟩])) ∧
    (pyTruthyStr oidB = false →
       create_order_in_1c db raw (.reply true oidB msgB) pf
         = (.missingOrderId, db, [⟨v.customer_info, its⟩])) := by
  constructor
  · simp [create_order_in_1c, hv, hb]
  · intro ho
    simp [create_order_in_1c, hv, hb, ho]

/-- Witness for C2: a concrete "Out of stock" rejection and a concrete
id-less success reply, both leaving the store untouched. -/
theorem claim_C2_witness :
    (create_order_in_1c sampleDB sampleRaw (.reply false none (some "Out of stock")) false
       = (.remoteRejected "Out of stock", sampleDB,
          [⟨some "cust", [⟨"P1C", 2, 10⟩]⟩])) ∧
    (create_order_in_1c sampleDB sampleRaw (.reply true none none) false
       = (.missingOrderId, sampleDB,
          [⟨some "cust", [⟨"P1C", 2, 10⟩]⟩])) :=
  ⟨(claim_C2_remote_rejection sampleDB sampleRaw sampleVOrder [⟨"P1C", 2, 10⟩]
      false "Out of stock" none none none rfl rfl).1,
   (claim_C2_remote_rejection sampleDB sampleRaw sampleVOrder [⟨"P1C", 2, 10⟩]
      false "Out of stock" none none none rfl rfl).2 rfl⟩

/-- Claim C3: OrderSerializer.create persists an Order whose total_amount
is the exact decimal sum of quantity × unit-price snapshot over all N
created items (the model's `Rat` arithmetic is exact — no floating point).
The pairwise-distinct-products hypothesis mirrors the order+product
uniqueness constraint of the data model. -/
theorem claim_C3_create_total (db : DB) (ctx : Option String) (v : ValidatedOrder)
    (hdb : DBInv db)
    (_hdist : v.items.Pairwise (fun i j => i.product.id ≠ j.product.id)) :
    (OrderSerializer.create db ctx v).2 ∈ (OrderSerializer.create db ctx v).1.orders ∧
    (itemsOf (OrderSerializer.create db ctx v).1
        (OrderSerializer.create db ctx v).2.id).length = v.items.length ∧
    (OrderSerializer.create db ctx v).2.total_amount
      = ((itemsOf (OrderSerializer.create db ctx v).1
            (OrderSerializer.create db ctx v).2.id).map OrderItem.total_price).sum ∧
    (OrderSerializer.create db ctx v).2.total_amount
      = (v.items.map (fun i => (i.quantity : Rat) * i.price_per_item)).sum := by
  have hio := itemsOf_create db ctx v hdb
  refine ⟨create_mem_orders db ctx v, ?_, ?_, ?_⟩
  · rw [hio, mkItems_length]
  · rw [hio, create_total_eq]
  · rw [create_total_eq, mkItems_map_total]

/-- Witness for C3 at the sample store and payload: total 2 × 10 = 20. -/
theorem claim_C3_witness :
    (OrderSerializer.create sampleDB (some "X") sampleVOrder).2.total_amount
      = (sampleVOrder.items.map (fun i => (i.quantity : Rat) * i.price_per_item)).sum ∧
    (OrderSerializer.create sampleDB (some "X") sampleVOrder).2.total_amount = 20 :=
  ⟨(claim_C3_create_total sampleDB (some "X") sampleVOrder
      (by intro it h; cases h) (by simp [sampleVOrder])).2.2.2,
   by
     simp [OrderSerializer.create, sampleVOrder, sampleVItem, sampleDB, mkItems,
           OrderItem.total_price, freshItemId, freshOrderId]
     norm_num⟩

/-- Claim C4: an order payload whose items list is empty, or contains an
item with quantity ≤ 0, is rejected by validation with an error naming the
offending field or item, before any write: the store is unchanged and no
remote request is issued. -/
theorem claim_C4_validation_rejects (db : DB) (raw : RawOrderPayload)
    (l : List RawItem) (remote : RemoteOutcome) (pf : Bool)
    (hit : raw.items = some l) :
    (l = [] →
       create_order_in_1c db raw remote pf = (.validationError .emptyItems, db, [])) ∧
    ((∃ i ∈ l, i.quantity ≤ 0) →
       ∃ e, create_order_in_1c db raw remote pf = (.validationError e, db, []) ∧
         (∃ pid, e = .productNotFound pid ∨ e = .negativeQuantity pid ∨
                 e = .nonPositiveQuantity pid)) := by
  constructor
  · intro hl
    subst hl
    have hrv : runValidation db raw = .error .emptyItems := by
      simp [runValidation, hit, validateItems, validate_items]
    simp [create_order_in_1c, hrv]
  · rintro ⟨i, hi, hq⟩
    cases hval : validateItems db l with
    | error e =>
      have hrv : runValidation db raw = .error e := by
        simp [runValidation, hit, hval]
      rcases validateItems_error_shape db l e hval with ⟨pid, hpid⟩
      exact ⟨e, by simp [create_order_in_1c, hrv],
             ⟨pid, by rcases hpid with h | h
                      · exact Or.inl h
                      · exact Or.inr (Or.inl h)⟩⟩
    | ok vs =>
      have hqs := validateItems_ok_quantities db l vs hval
      have hmem : ∃ v2 ∈ vs, v2.quantity ≤ 0 := by
        have : i.quantity ∈ vs.map VItem.quantity := by
          rw [hqs]
          exact List.mem_map_of_mem _ hi
        rcases List.mem_map.1 this with ⟨v2, hv2, hv2q⟩
        exact ⟨v2, hv2, by rw [hv2q]; exact hq⟩
      rcases firstNonPositive_some_of_exists vs hmem with ⟨pid, hfnp⟩
      have hne : vs.isEmpty = false := by
        rcases hmem with ⟨v2, hv2, _⟩
        cases vs with
        | nil => cases hv2
        | cons a t => rfl
      have hrv : runValidation db raw
          = .error (VErr.nonPositiveQuantity pid) := by
        simp [runValidation, hit, hval, validate_items, hne, hfnp]
      exact ⟨VErr.nonPositiveQuantity pid, by simp [create_order_in_1c, hrv],
             ⟨pid, Or.inr (Or.inr rfl)⟩⟩

/-- Witness for C4: the empty payload and a zero-quantity payload are both
rejected against the sample store with no write and no remote call. -/
theorem claim_C4_witness :
    (create_order_in_1c sampleDB ⟨some "c", none, some []⟩ .timeout false
       = (.validationError .emptyItems, sampleDB, [])) ∧
    (∃ e, create_order_in_1c sampleDB ⟨some "c", none, some [⟨1, 0, 10⟩]⟩ .timeout false
       = (.validationError e, sampleDB, []) ∧
       (∃ pid, e = .productNotFound pid ∨ e = .negativeQuantity pid ∨
               e = .nonPositiveQuantity pid)) :=
  ⟨(claim_C4_validation_rejects sampleDB ⟨some "c", none, some []⟩ [] .timeout false
      rfl).1 rfl,
   (claim_C4_validation_rejects sampleDB ⟨some "c", none, some [⟨1, 0, 10⟩]⟩
      [⟨1, 0, 10⟩] .timeout false rfl).2
     ⟨⟨1, 0, 10⟩, List.mem_singleton.mpr rfl, by decide⟩⟩

theorem mem_map_if (l : List Order) (oid : Nat) (inst2 : Order) (o : Order)
    (ho : o ∈ l) (hid : (o.id == oid) = true) :
    inst2 ∈ l.map (fun q => if q.id == oid then inst2 else q) := by
  induction l with
  | nil => cases ho
  | cons a t ih =>
    simp only [List.map_cons]
    rcases List.mem_cons.1 ho with rfl | hmem
    · rw [if_pos hid]
      exact List.mem_cons_self _ _
    · by_cases ha : (a.id == oid) = true
      · rw [if_pos ha]
        exact List.mem_cons_self _ _
      · rw [if_neg ha]
        exact List.mem_cons_of_mem _ (ih hmem)

/-- Claim C5: on update with an `items` list of size M, the existing item
set of the order is entirely replaced — afterwards exactly the M freshly
created rows exist for the order, none sharing an id with a pre-existing
row; without an `items` key the item set is untouched; in both cases the
saved order's total_amount is recomputed as the exact sum of the current
persisted items' line totals (the payload carries no total field at all). -/
theorem claim_C5_update (db : DB) (oid : Nat) (v : ValidatedUpdate) (inst : Order)
    (hfind : db.orders.find? (fun o => o.id == oid) = some inst)
    (_hdist : ∀ l, v.items = some l → l.Pairwise (fun i j => i.product.id ≠ j.product.id)) :
    (∀ l, v.items = some l →
       itemsOf (OrderSerializer.update db oid v).1 oid = mkItems (freshItemId db) oid l ∧
       (itemsOf (OrderSerializer.update db oid v).1 oid).length = l.length ∧
       (∀ it ∈ itemsOf db oid, ∀ it2 ∈ itemsOf (OrderSerializer.update db oid v).1 oid,
          it.id ≠ it2.id)) ∧
    (v.items = none → itemsOf (OrderSerializer.update db oid v).1 oid = itemsOf db oid) ∧
    (∃ o2, (OrderSerializer.update db oid v).2 = some o2 ∧
       o2 ∈ (OrderSerializer.update db oid v).1.orders ∧
       o2.total_amount
         = ((itemsOf (OrderSerializer.update db oid v).1 oid).map OrderItem.total_price).sum) := by
  have hmemo : inst ∈ db.orders := List.mem_of_find?_eq_some hfind
  have hido : (inst.id == oid) = true := by
    have h := List.find?_some hfind
    exact h
  refine ⟨?_, ?_, ?_⟩
  · intro l hvi
    have hA : (OrderSerializer.update db oid v).1.order_items
        = db.order_items.filter (fun it => !(it.order == oid))
            ++ mkItems (freshItemId db) oid l := by
      simp [OrderSerializer.update, hfind, hvi]
    have hrem : ∀ it ∈ db.order_items.filter (fun it => !(it.order == oid)),
        (it.order == oid) = false := by
      intro it h
      have h2 := (List.mem_filter.1 h).2
      cases hb : (it.order == oid) with
      | false => rfl
      | true => rw [hb] at h2; simp at h2
    have hnew : ∀ it ∈ mkItems (freshItemId db) oid l, (it.order == oid) = true := by
      intro it h
      simp [mkItems_order _ _ _ it h]
    have hio : itemsOf (OrderSerializer.update db oid v).1 oid
        = mkItems (freshItemId db) oid l := by
      unfold itemsOf
      rw [hA, List.filter_append, filter_all_false _ _ hrem, filter_all_true _ _ hnew,
          List.nil_append]
    refine ⟨hio, by rw [hio, mkItems_length], ?_⟩
    intro it hit it2 hit2
    rw [hio] at hit2
    simp only [itemsOf] at hit
    have h1 : it ∈ db.order_items := (List.mem_filter.1 hit).1
    have h2 : it.id < freshItemId db := item_id_lt_fresh db it h1
    have h3 : freshItemId db ≤ it2.id := mkItems_id_ge _ _ _ it2 hit2
    exact Nat.ne_of_lt (lt_of_lt_of_le h2 h3)
  · intro hvi
    simp [OrderSerializer.update, hfind, hvi, itemsOf]
  · cases hvi : v.items with
    | none =>
      simp only [OrderSerializer.update, hfind, hvi]
      refine ⟨_, rfl, ?_, ?_⟩
      · exact mem_map_if db.orders oid _ inst hmemo hido
      · rfl
    | some l =>
      simp only [OrderSerializer.update, hfind, hvi]
      refine ⟨_, rfl, ?_, ?_⟩
      · exact mem_map_if db.orders oid _ inst hmemo hido
      · rfl

/-- Witness for C5: replacing the single original item of an order by a
fresh 3 × 5 item, and a no-items update, both through the theorem. -/
theorem claim_C5_witness :
    (itemsOf (OrderSerializer.update
        ⟨[sampleProduct], [⟨1, some "Z", some "c", .NEW, 20⟩], [⟨1, 1, 1, 2, 10⟩]⟩ 1
        ⟨none, none, some [⟨sampleProduct, 3, 5⟩]⟩).1 1).length = 1 ∧
    itemsOf (OrderSerializer.update
        ⟨[sampleProduct], [⟨1, some "Z", some "c", .NEW, 20⟩], [⟨1, 1, 1, 2, 10⟩]⟩ 1
        ⟨some "c2", none, none⟩).1 1
      = itemsOf ⟨[sampleProduct], [⟨1, some "Z", some "c", .NEW, 20⟩], [⟨1, 1, 1, 2, 10⟩]⟩ 1 :=
  ⟨((claim_C5_update
      ⟨[sampleProduct], [⟨1, some "Z", some "c", .NEW, 20⟩], [⟨1, 1, 1, 2, 10⟩]⟩ 1
      ⟨none, none, some [⟨sampleProduct, 3, 5⟩]⟩ ⟨1, some "Z", some "c", .NEW, 20⟩
      rfl
      (by intro l hl; cases hl; simp)).1
      [⟨sampleProduct, 3, 5⟩] rfl).2.1,
   (claim_C5_update
      ⟨[sampleProduct], [⟨1, some "Z", some "c", .NEW, 20⟩], [⟨1, 1, 1, 2, 10⟩]⟩ 1
      ⟨some "c2", none, none⟩ ⟨1, some "Z", some "c", .NEW, 20⟩
      rfl
      (by intro l hl; cases hl)).2.1 rfl⟩

/-- Claim C9: if a referenced product has neither a truthy external 1C id
nor a truthy article, Remote Order Submission fails during preparation —
before any remote request is issued — and persists nothing; otherwise each
line item is translated to the remote wire format with the product's 1C id
or, when that is absent, its article as the correlation key. -/
theorem claim_C9_identifier_fallback (db : DB) (raw : RawOrderPayload)
    (v : ValidatedOrder) (remote : RemoteOutcome) (pf : Bool)
    (hv : runValidation db raw = .ok v) :
    ((∃ i ∈ v.items, pyTruthyStr (productIdentifier1C i.product) = false) →
       ∃ nm, create_order_in_1c db raw remote pf = (.prepareError nm, db, [])) ∧
    ((∀ i ∈ v.items, pyTruthyStr (productIdentifier1C i.product) = true) →
       buildItems1C v.items
         = .ok (v.items.map (fun i =>
             ⟨(productIdentifier1C i.product).getD "", i.quantity, i.price_per_item⟩)) ∧
       (create_order_in_1c db raw remote pf).2.2
         = [⟨v.customer_info, v.items.map (fun i =>
             ⟨(productIdentifier1C i.product).getD "", i.quantity, i.price_per_item⟩)⟩]) := by
  constructor
  · intro hex
    rcases buildItems1C_error_of_exists v.items hex with ⟨nm, hnm⟩
    exact ⟨nm, by simp [create_order_in_1c, hv, hnm]⟩
  · intro hall
    have hb := buildItems1C_ok_of_all v.items hall
    exact ⟨hb, sent_requests_eq db raw v _ remote pf hv hb⟩

/-- Witness for C9: a product with neither identifier aborts before the
remote call; the sample product's 1C id is used as the wire key. -/
theorem claim_C9_witness :
    (∃ nm, create_order_in_1c
        ⟨[⟨1, none, "NoId", none, none, 10, 3⟩], [], []⟩
        ⟨some "c", none, some [⟨1, 2, 10⟩]⟩ .timeout false
      = (.prepareError nm, ⟨[⟨1, none, "NoId", none, none, 10, 3⟩], [], []⟩, [])) ∧
    (create_order_in_1c sampleDB sampleRaw .timeout false).2.2
      = [⟨some "cust", [⟨"P1C", 2, 10⟩]⟩] :=
  ⟨(claim_C9_identifier_fallback
      ⟨[⟨1, none, "NoId", none, none, 10, 3⟩], [], []⟩
      ⟨some "c", none, some [⟨1, 2, 10⟩]⟩
      ⟨some "c", none, [⟨⟨1, none, "NoId", none, none, 10, 3⟩, 2, 10⟩]⟩
      .timeout false rfl).1
      ⟨⟨⟨1, none, "NoId", none, none, 10, 3⟩, 2, 10⟩,
        List.mem_singleton.mpr rfl, by decide⟩,
   by
     have h := (claim_C9_identifier_fallback sampleDB sampleRaw sampleVOrder
       .timeout false rfl).2 (by decide)
     exact h.2⟩

/-! ### Catalog sync helper lemmas -/

theorem productMatches_iff (a : String) (p : Product) :
    productMatches a p = true ↔ p.article = some a := by
  simp [productMatches]

theorem length_updateFirst (a : String) (f : Product → Product) (l : List Product) :
    (updateFirst a f l).length = l.length := by
  induction l with
  | nil => rfl
  | cons p ps ih =>
    by_cases hp : productMatches a p = true
    · simp [updateFirst, hp]
    · simp [updateFirst, Bool.eq_false_iff.mpr hp, ih]

theorem mem_updateFirst (a : String) (f : Product → Product) (l : List Product) :
    ∀ q ∈ updateFirst a f l, q ∈ l ∨ ∃ p ∈ l, productMatches a p = true ∧ q = f p := by
  induction l with
  | nil => intro q h; cases h
  | cons p ps ih =>
    intro q hq
    by_cases hp : productMatches a p = true
    · rw [updateFirst, if_pos hp] at hq
      rcases List.mem_cons.1 hq with rfl | hmem
      · exact Or.inr ⟨p, List.mem_cons_self _ _, hp, rfl⟩
      · exact Or.inl (List.mem_cons_of_mem _ hmem)
    · rw [updateFirst, if_neg hp] at hq
      rcases List.mem_cons.1 hq with rfl | hmem
      · exact Or.inl (List.mem_cons_self _ _)
      · rcases ih q hmem with h | ⟨p2, hp2, hm2, hq2⟩
        · exact Or.inl (List.mem_cons_of_mem _ h)
        · exact Or.inr ⟨p2, List.mem_cons_of_mem _ hp2, hm2, hq2⟩

theorem updateFirst_mem_of_not_match (a : String) (f : Product → Product)
    (l : List Product) (p : Product) (hp : p ∈ l)
    (hnm : productMatches a p = false) : p ∈ updateFirst a f l := by
  induction l with
  | nil => cases hp
  | cons b bs ih =>
    by_cases hb : productMatches a b = true
    · rw [updateFirst, if_pos hb]
      rcases List.mem_cons.1 hp with rfl | hmem
      · rw [hb] at hnm; cases hnm
      · exact List.mem_cons_of_mem _ hmem
    · rw [updateFirst, if_neg hb]
      rcases List.mem_cons.1 hp with rfl | hmem
      · exact List.mem_cons_self _ _
      · exact List.mem_cons_of_mem _ (ih hmem)

theorem exists_match_updateFirst (a : String) (f : Product → Product)
    (l : List Product) (h : l.any (productMatches a) = true) :
    ∃ p ∈ l, productMatches a p = true ∧ f p ∈ updateFirst a f l := by
  induction l with
  | nil => simp at h
  | cons b bs ih =>
    by_cases hb : productMatches a b = true
    · exact ⟨b, List.mem_cons_self _ _, hb, by rw [updateFirst, if_pos hb]; exact List.mem_cons_self _ _⟩
    · have hbs : bs.any (productMatches a) = true := by
        rcases List.any_eq_true.1 h with ⟨p, hp, hm⟩
        rcases List.mem_cons.1 hp with rfl | hmem
        · rw [hm] at hb; cases hb rfl
        · exact List.any_eq_true.2 ⟨p, hmem, hm⟩
      rcases ih hbs with ⟨p, hp, hm, hmem⟩
      exact ⟨p, List.mem_cons_of_mem _ hp, hm,
             by rw [updateFirst, if_neg hb]; exact List.mem_cons_of_mem _ hmem⟩

theorem updateFirst_map_article (a : String) (f : Product → Product) (l : List Product)
    (hf : ∀ p, productMatches a p = true → (f p).article = p.article) :
    (updateFirst a f l).map Product.article = l.map Product.article := by
  induction l with
  | nil => rfl
  | cons b bs ih =>
    by_cases hb : productMatches a b = true
    · rw [updateFirst, if_pos hb]
      simp [hf b hb]
    · rw [updateFirst, if_neg hb]
      simp [ih]

theorem updateFirst_exists_id (a : String) (f : Product → Product) (l : List Product)
    (hf : ∀ p, (f p).id = p.id) (p : Product) (hp : p ∈ l) :
    ∃ q ∈ updateFirst a f l, q.id = p.id := by
  induction l with
  | nil => cases hp
  | cons b bs ih =>
    by_cases hb : productMatches a b = true
    · rw [updateFirst, if_pos hb]
      rcases List.mem_cons.1 hp with rfl | hmem
      · exact ⟨f p, List.mem_cons_self _ _, hf p⟩
      · exact ⟨p, List.mem_cons_of_mem _ hmem, rfl⟩
    · rw [updateFirst, if_neg hb]
      rcases List.mem_cons.1 hp with rfl | hmem
      · exact ⟨p, List.mem_cons_self _ _, rfl⟩
      · rcases ih hmem with ⟨q, hq, hqid⟩
        exact ⟨q, List.mem_cons_of_mem _ hq, hqid⟩

theorem syncStep_skip (store : List Product) (rep : SyncReport) (r : Raw1CProduct)
    (h : requiredPresent r = false) :
    syncStep (store, rep) r = (store, addSkipErr rep r) := by
  simp [syncStep, h]

theorem syncStep_update (store : List Product) (rep : SyncReport) (r : Raw1CProduct)
    (h : requiredPresent r = true)
    (hm : store.any (productMatches r.art) = true)
    (hc : idConflictOnUpdate store r.art r.rid = false) :
    syncStep (store, rep) r
      = (updateFirst r.art
           (applyRemoteFields r.rid r.nameD r.art r.priceD r.stockD r.descD) store,
         { rep with updated := rep.updated + 1 }) := by
  simp [syncStep, h, update_or_create_product, hm, hc]

theorem syncStep_insert (store : List Product) (rep : SyncReport) (r : Raw1CProduct)
    (h : requiredPresent r = true)
    (hm : store.any (productMatches r.art) = false)
    (ht : idTaken store r.rid = false) :
    syncStep (store, rep) r
      = (store ++ [mkRemoteProduct (freshProductId store)
                     r.rid r.nameD r.art r.priceD r.stockD r.descD],
         { rep with created := rep.created + 1 }) := by
  simp [syncStep, h, update_or_create_product, hm, ht]

theorem syncStep_fst_cases (store : List Product) (rep : SyncReport) (r : Raw1CProduct) :
    (syncStep (store, rep) r).1 = store ∨
    (requiredPresent r = true ∧
      (syncStep (store, rep) r).1
        = updateFirst r.art
            (applyRemoteFields r.rid r.nameD r.art r.priceD r.stockD r.descD) store) ∨
    (requiredPresent r = true ∧ store.any (productMatches r.art) = false ∧
      (syncStep (store, rep) r).1
        = store ++ [mkRemoteProduct (freshProductId store)
                      r.rid r.nameD r.art r.priceD r.stockD r.descD]) := by
  by_cases h : requiredPresent r = true
  · by_cases hm : store.any (productMatches r.art) = true
    · by_cases hc : idConflictOnUpdate store r.art r.rid = true
      · left
        simp [syncStep, h, update_or_create_product, hm, hc]
      · right; left
        exact ⟨h, by rw [syncStep_update store rep r h hm (Bool.eq_false_iff.mpr hc)]⟩
    · by_cases ht : idTaken store r.rid = true
      · left
        simp [syncStep, h, update_or_create_product, Bool.eq_false_iff.mpr hm, ht]
      · right; right
        refine ⟨h, Bool.eq_false_iff.mpr hm, ?_⟩
        rw [syncStep_insert store rep r h (Bool.eq_false_iff.mpr hm)
              (Bool.eq_false_iff.mpr ht)]
  · left
    rw [syncStep_skip store rep r (Bool.eq_false_iff.mpr h)]

theorem syncStep_rep_cases (store : List Product) (rep : SyncReport) (r : Raw1CProduct) :
    (syncStep (store, rep) r).2 = { rep with created := rep.created + 1 } ∨
    (syncStep (store, rep) r).2 = { rep with updated := rep.updated + 1 } ∨
    (∃ m, (syncStep (store, rep) r).2
        = { rep with errors := rep.errors + 1,
                     error_list := rep.error_list ++ [m] }) := by
  by_cases h : requiredPresent r = true
  · by_cases hm : store.any (productMatches r.art) = true
    · by_cases hc : idConflictOnUpdate store r.art r.rid = true
      · right; right
        exact ⟨procErrMsg r, by simp [syncStep, h, update_or_create_product, hm, hc]⟩
      · right; left
        rw [syncStep_update store rep r h hm (Bool.eq_false_iff.mpr hc)]
    · by_cases ht : idTaken store r.rid = true
      · right; right
        exact ⟨procErrMsg r,
          by simp [syncStep, h, update_or_create_product, Bool.eq_false_iff.mpr hm, ht]⟩
      · left
        rw [syncStep_insert store rep r h (Bool.eq_false_iff.mpr hm)
              (Bool.eq_false_iff.mpr ht)]
  · right; right
    exact ⟨skipMsg r,
      by rw [syncStep_skip store rep r (Bool.eq_false_iff.mpr h)]; rfl⟩

theorem run_counts (recs : List Raw1CProduct) : ∀ (store : List Product) (rep : SyncReport),
    ((List.foldl syncStep (store, rep) recs).2.created
      + (List.foldl syncStep (store, rep) recs).2.updated
      + (List.foldl syncStep (store, rep) recs).2.errors
      = rep.created + rep.updated + rep.errors + recs.length) ∧
    (rep.error_list.length = rep.errors →
      (List.foldl syncStep (store, rep) recs).2.error_list.length
        = (List.foldl syncStep (store, rep) recs).2.errors) := by
  induction recs with
  | nil => intro store rep; exact ⟨by simp, fun h => h⟩
  | cons r t ih =>
    intro store rep
    rw [List.foldl_cons]
    have heta : syncStep (store, rep) r
        = ((syncStep (store, rep) r).1, (syncStep (store, rep) r).2) := rfl
    rw [heta]
    rcases syncStep_rep_cases store rep r with hc | hc | ⟨m, hc⟩ <;> rw [hc]
    · have h := ih (syncStep (store, rep) r).1 { rep with created := rep.created + 1 }
      refine ⟨by rw [h.1]; simp; omega, fun he => h.2 he⟩
    · have h := ih (syncStep (store, rep) r).1 { rep with updated := rep.updated + 1 }
      refine ⟨by rw [h.1]; simp; omega, fun he => h.2 he⟩
    · have h := ih (syncStep (store, rep) r).1
        { rep with errors := rep.errors + 1, error_list := rep.error_list ++ [m] }
      refine ⟨by rw [h.1]; simp; omega, fun he => h.2 (by simp [he])⟩

theorem run_mem_origin (recs : List Raw1CProduct) : ∀ (store : List Product)
    (rep : SyncReport), ∀ q ∈ (List.foldl syncStep (store, rep) recs).1,
    q ∈ store ∨ ∃ r ∈ recs, q.product_1c_id = some r.rid ∧ q.article = some r.art := by
  induction recs with
  | nil => intro store rep q hq; exact Or.inl hq
  | cons r t ih =>
    intro store rep q hq
    rw [List.foldl_cons] at hq
    have hq2 := ih (syncStep (store, rep) r).1 (syncStep (store, rep) r).2 q hq
    rcases hq2 with hmem | ⟨r2, hr2, h1c, hart⟩
    · rcases syncStep_fst_cases store rep r with hc | ⟨_, hc⟩ | ⟨_, _, hc⟩
      · rw [hc] at hmem; exact Or.inl hmem
      · rw [hc] at hmem
        rcases mem_updateFirst _ _ _ q hmem with h | ⟨p, _, _, rfl⟩
        · exact Or.inl h
        · exact Or.inr ⟨r, List.mem_cons_self _ _, rfl, rfl⟩
      · rw [hc] at hmem
        rcases List.mem_append.1 hmem with h | h
        · exact Or.inl h
        · rw [List.mem_singleton] at h
          subst h
          exact Or.inr ⟨r, List.mem_cons_self _ _, rfl, rfl⟩
    · exact Or.inr ⟨r2, List.mem_cons_of_mem _ hr2, h1c, hart⟩

theorem run_frame (recs : List Raw1CProduct) : ∀ (store : List Product)
    (rep : SyncReport) (p : Product), p ∈ store →
    (∀ r ∈ recs, requiredPresent r = true → p.article ≠ some r.art) →
    p ∈ (List.foldl syncStep (store, rep) recs).1 := by
  induction recs with
  | nil => intro store rep p hp _; exact hp
  | cons r t ih =>
    intro store rep p hp hna
    rw [List.foldl_cons]
    apply ih (syncStep (store, rep) r).1 (syncStep (store, rep) r).2 p
    · rcases syncStep_fst_cases store rep r with hc | ⟨hreq, hc⟩ | ⟨_, _, hc⟩
      · rw [hc]; exact hp
      · rw [hc]
        apply updateFirst_mem_of_not_match _ _ _ p hp
        cases hmm : productMatches r.art p with
        | false => rfl
        | true =>
          exact absurd ((productMatches_iff _ _).1 hmm)
            (hna r (List.mem_cons_self _ _) hreq)
      · rw [hc]; exact List.mem_append_left _ hp
    · intro r2 hr2 hreq2
      exact hna r2 (List.mem_cons_of_mem _ hr2) hreq2

theorem run_id_preserved (recs : List Raw1CProduct) : ∀ (store : List Product)
    (rep : SyncReport) (p : Product), p ∈ store →
    ∃ q ∈ (List.foldl syncStep (store, rep) recs).1, q.id = p.id := by
  induction recs with
  | nil => intro store rep p hp; exact ⟨p, hp, rfl⟩
  | cons r t ih =>
    intro store rep p hp
    rw [List.foldl_cons]
    have hq1 : ∃ q1 ∈ (syncStep (store, rep) r).1, q1.id = p.id := by
      rcases syncStep_fst_cases store rep r with hc | ⟨_, hc⟩ | ⟨_, _, hc⟩
      · rw [hc]; exact ⟨p, hp, rfl⟩
      · rw [hc]
        exact updateFirst_exists_id r.art
          (applyRemoteFields r.rid r.nameD r.art r.priceD r.stockD r.descD) store
          (fun _ => rfl) p hp
      · rw [hc]; exact ⟨p, List.mem_append_left _ hp, rfl⟩
    rcases hq1 with ⟨q1, hq1m, hq1id⟩
    rcases ih (syncStep (store, rep) r).1 (syncStep (store, rep) r).2 q1 hq1m with ⟨q, hq, hqid⟩
    exact ⟨q, hq, hqid.trans hq1id⟩

theorem run_length_mono (recs : List Raw1CProduct) : ∀ (store : List Product)
    (rep : SyncReport),
    store.length ≤ (List.foldl syncStep (store, rep) recs).1.length := by
  induction recs with
  | nil => intro store rep; exact le_refl _
  | cons r t ih =>
    intro store rep
    rw [List.foldl_cons]
    have h2 := ih (syncStep (store, rep) r).1 (syncStep (store, rep) r).2
    have h1 : store.length ≤ (syncStep (store, rep) r).1.length := by
      rcases syncStep_fst_cases store rep r with hc | ⟨_, hc⟩ | ⟨_, _, hc⟩
      · rw [hc]
      · rw [hc, length_updateFirst]
      · rw [hc]; simp
    exact le_trans h1 h2

theorem idConflict_false_of (store : List Product) (a i : String)
    (h : ∀ q ∈ store, q.product_1c_id = some i → q.article = some a) :
    idConflictOnUpdate store a i = false := by
  cases hA : idConflictOnUpdate store a i with
  | false => rfl
  | true =>
    rcases List.any_eq_true.1 hA with ⟨q, hq, hpred⟩
    simp only [Bool.and_eq_true] at hpred
    rcases hpred with ⟨h1, h2⟩
    have h1e : q.product_1c_id = some i := by
      exact beq_iff_eq.mp h1
    have h3 := h q hq h1e
    rw [h3] at h2
    simp at h2

theorem idTaken_false_of (store : List Product) (a i : String)
    (h : ∀ q ∈ store, q.product_1c_id = some i → q.article = some a)
    (hm : store.any (productMatches a) = false) :
    idTaken store i = false := by
  cases hA : idTaken store i with
  | false => rfl
  | true =>
    rcases List.any_eq_true.1 hA with ⟨q, hq, hpred⟩
    have h1e : q.product_1c_id = some i := beq_iff_eq.mp hpred
    have h2 := h q hq h1e
    have h3 : store.any (productMatches a) = true :=
      List.any_eq_true.2 ⟨q, hq, (productMatches_iff _ _).2 h2⟩
    rw [h3] at hm
    cases hm

theorem any_match_of_exists (store : List Product) (a : String)
    (h : ∃ p ∈ store, p.article = some a) :
    store.any (productMatches a) = true := by
  rcases h with ⟨p, hp, ha⟩
  exact List.any_eq_true.2 ⟨p, hp, (productMatches_iff a p).2 ha⟩

theorem exists_article_of_map_eq (l2 l : List Product)
    (hmap : l2.map Product.article = l.map Product.article)
    (s : String) (h : ∃ p ∈ l, p.article = some s) : ∃ p ∈ l2, p.article = some s := by
  rcases h with ⟨p, hp, hs⟩
  have hmem : some s ∈ l2.map Product.article := by
    rw [hmap]
    exact hs ▸ List.mem_map_of_mem _ hp
  rcases List.mem_map.1 hmem with ⟨p2, hp2, hp2s⟩
  exact ⟨p2, hp2, hp2s⟩

theorem run2_lemma (recs : List Raw1CProduct) : ∀ (store : List Product) (rep : SyncReport),
    (∀ r ∈ recs, requiredPresent r = true) →
    recs.Pairwise (fun r r2 => r.rid ≠ r2.rid) →
    (∀ r ∈ recs, ∃ p ∈ store, p.article = some r.art) →
    (∀ r ∈ recs, ∀ q ∈ store, q.product_1c_id = some r.rid → q.article = some r.art) →
    (List.foldl syncStep (store, rep) recs).2.created = rep.created ∧
    (List.foldl syncStep (store, rep) recs).2.updated = rep.updated + recs.length ∧
    (List.foldl syncStep (store, rep) recs).2.errors = rep.errors ∧
    (List.foldl syncStep (store, rep) recs).1.length = store.length := by
  induction recs with
  | nil => intro store rep _ _ _ _; exact ⟨rfl, by simp, rfl, rfl⟩
  | cons r t ih =>
    intro store rep hwf hpw hex hnc
    have hreq := hwf r (List.mem_cons_self _ _)
    have hm : store.any (productMatches r.art) = true :=
      any_match_of_exists store r.art (hex r (List.mem_cons_self _ _))
    have hcf : idConflictOnUpdate store r.art r.rid = false :=
      idConflict_false_of store r.art r.rid (hnc r (List.mem_cons_self _ _))
    rw [List.foldl_cons, syncStep_update store rep r hreq hm hcf]
    have hfart : ∀ p, productMatches r.art p = true →
        (applyRemoteFields r.rid r.nameD r.art r.priceD r.stockD r.descD p).article
          = p.article := by
      intro p hp
      rw [(productMatches_iff _ _).1 hp]
      rfl
    have hmap := updateFirst_map_article r.art
      (applyRemoteFields r.rid r.nameD r.art r.priceD r.stockD r.descD) store hfart
    have hpc := List.pairwise_cons.1 hpw
    have ih2 := ih
      (updateFirst r.art (applyRemoteFields r.rid r.nameD r.art r.priceD r.stockD r.descD) store)
      { rep with updated := rep.updated + 1 }
      (fun r2 h2 => hwf r2 (List.mem_cons_of_mem _ h2))
      hpc.2
      (fun r2 h2 => exists_article_of_map_eq _ _ hmap _ (hex r2 (List.mem_cons_of_mem _ h2)))
      (by
        intro r2 h2 q hq h1c
        rcases mem_updateFirst _ _ _ q hq with hmem | ⟨p, hp, hmch, rfl⟩
        · exact hnc r2 (List.mem_cons_of_mem _ h2) q hmem h1c
        · have h1c2 : some r.rid = some r2.rid := h1c
          exact absurd (Option.some.inj h1c2) (hpc.1 r2 h2))
    rcases ih2 with ⟨h1, h2, h3, h4⟩
    refine ⟨h1, ?_, h3, by rw [h4, length_updateFirst]⟩
    rw [h2]
    simp
    omega

theorem run1_lemma (recs : List Raw1CProduct) : ∀ (store : List Product) (rep : SyncReport),
    (∀ r ∈ recs, requiredPresent r = true) →
    recs.Pairwise (fun r r2 => r.art ≠ r2.art ∧ r.rid ≠ r2.rid) →
    (∀ r ∈ recs, ∀ q ∈ store, q.product_1c_id = some r.rid → q.article = some r.art) →
    (∀ r ∈ recs, ∃ p ∈ (List.foldl syncStep (store, rep) recs).1, p.article = some r.art) ∧
    (∀ r ∈ recs, ∀ q ∈ (List.foldl syncStep (store, rep) recs).1,
       q.product_1c_id = some r.rid → q.article = some r.art) := by
  induction recs with
  | nil =>
    intro store rep _ _ _
    exact ⟨fun r h => absurd h (List.not_mem_nil r), fun r h => absurd h (List.not_mem_nil r)⟩
  | cons r t ih =>
    intro store rep hwf hpw hnc
    have hreq := hwf r (List.mem_cons_self _ _)
    have hpc := List.pairwise_cons.1 hpw
    cases hm : store.any (productMatches r.art) with
    | true =>
      have hcf : idConflictOnUpdate store r.art r.rid = false :=
        idConflict_false_of store r.art r.rid (hnc r (List.mem_cons_self _ _))
      rw [List.foldl_cons, syncStep_update store rep r hreq hm hcf]
      have hnc2 : ∀ r2 ∈ t, ∀ q ∈ updateFirst r.art
          (applyRemoteFields r.rid r.nameD r.art r.priceD r.stockD r.descD) store,
          q.product_1c_id = some r2.rid → q.article = some r2.art := by
        intro r2 h2 q hq h1c
        rcases mem_updateFirst _ _ _ q hq with hmem | ⟨p, hp, hmch, rfl⟩
        · exact hnc r2 (List.mem_cons_of_mem _ h2) q hmem h1c
        · have h1c2 : some r.rid = some r2.rid := h1c
          exact absurd (Option.some.inj h1c2) (hpc.1 r2 h2).2
      have ihr := ih
        (updateFirst r.art (applyRemoteFields r.rid r.nameD r.art r.priceD r.stockD r.descD) store)
        { rep with updated := rep.updated + 1 }
        (fun r2 h2 => hwf r2 (List.mem_cons_of_mem _ h2)) hpc.2 hnc2
      constructor
      · intro r0 h0
        rcases List.mem_cons.1 h0 with rfl | h0t
        · rcases exists_match_updateFirst r0.art
            (applyRemoteFields r0.rid r0.nameD r0.art r0.priceD r0.stockD r0.descD) store hm
            with ⟨p, hp, hmch, hfmem⟩
          refine ⟨applyRemoteFields r0.rid r0.nameD r0.art r0.priceD r0.stockD r0.descD p,
                  ?_, rfl⟩
          apply run_frame t _ _ _ hfmem
          intro r2 h2 _
          intro hEq
          have hEq2 : some r0.art = some r2.art := hEq
          exact (hpc.1 r2 h2).1 (Option.some.inj hEq2)
        · exact ihr.1 r0 h0t
      · intro r0 h0 q hq h1c
        rcases List.mem_cons.1 h0 with rfl | h0t
        · rcases run_mem_origin t _ _ q hq with hmem | ⟨r2, hr2, h1c2, hart2⟩
          · rcases mem_updateFirst _ _ _ q hmem with hmem2 | ⟨p, hp, hmch, rfl⟩
            · exact hnc r0 (List.mem_cons_self _ _) q hmem2 h1c
            · rfl
          · exact absurd (Option.some.inj (h1c.symm.trans h1c2)) (hpc.1 r2 hr2).2
        · exact ihr.2 r0 h0t q hq h1c
    | false =>
      have htk : idTaken store r.rid = false :=
        idTaken_false_of store r.art r.rid (hnc r (List.mem_cons_self _ _)) hm
      rw [List.foldl_cons, syncStep_insert store rep r hreq hm htk]
      have hnewmem : mkRemoteProduct (freshProductId store)
            r.rid r.nameD r.art r.priceD r.stockD r.descD
          ∈ store ++ [mkRemoteProduct (freshProductId store)
            r.rid r.nameD r.art r.priceD r.stockD r.descD] :=
        List.mem_append_right _ (List.mem_singleton.mpr rfl)
      have hnc2 : ∀ r2 ∈ t, ∀ q ∈ store ++ [mkRemoteProduct (freshProductId store)
            r.rid r.nameD r.art r.priceD r.stockD r.descD],
          q.product_1c_id = some r2.rid → q.article = some r2.art := by
        intro r2 h2 q hq h1c
        rcases List.mem_append.1 hq with hmem | hmem
        · exact hnc r2 (List.mem_cons_of_mem _ h2) q hmem h1c
        · rw [List.mem_singleton] at hmem
          subst hmem
          have h1c2 : some r.rid = some r2.rid := h1c
          exact absurd (Option.some.inj h1c2) (hpc.1 r2 h2).2
      have ihr := ih
        (store ++ [mkRemoteProduct (freshProductId store)
          r.rid r.nameD r.art r.priceD r.stockD r.descD])
        { rep with created := rep.created + 1 }
        (fun r2 h2 => hwf r2 (List.mem_cons_of_mem _ h2)) hpc.2 hnc2
      constructor
      · intro r0 h0
        rcases List.mem_cons.1 h0 with rfl | h0t
        · refine ⟨mkRemoteProduct (freshProductId store)
              r0.rid r0.nameD r0.art r0.priceD r0.stockD r0.descD, ?_, rfl⟩
          apply run_frame t _ _ _ hnewmem
          intro r2 h2 _
          intro hEq
          have hEq2 : some r0.art = some r2.art := hEq
          exact (hpc.1 r2 h2).1 (Option.some.inj hEq2)
        · exact ihr.1 r0 h0t
      · intro r0 h0 q hq h1c
        rcases List.mem_cons.1 h0 with rfl | h0t
        · rcases run_mem_origin t _ _ q hq with hmem | ⟨r2, hr2, h1c2, hart2⟩
          · rcases List.mem_append.1 hmem with hmem2 | hmem2
            · exact hnc r0 (List.mem_cons_self _ _) q hmem2 h1c
            · rw [List.mem_singleton] at hmem2
              subst hmem2
              rfl
          · exact absurd (Option.some.inj (h1c.symm.trans h1c2)) (hpc.1 r2 hr2).2
        · exact ihr.2 r0 h0t q hq h1c

/-! ### Claims about Catalog Sync -/

/-- Claim C6 counterexample: the sync does NOT match remote records to
local products by external identifier.  With a store whose only product
has external id "X" and article "A", and a remote record with external id
"Y" and article "A": no local product carries the record's external id
"Y", so matching by external identifier would create a new Product — but
the code matches by article and updates the existing row in place
(created = 0, table size still 1, and the row's external id is
overwritten to "Y"). -/
theorem claim_C6_counterexample :
    (∀ p ∈ [prodC6], p.product_1c_id ≠ some "Y") ∧
    (runSync [recC6] [prodC6]).2.created = 0 ∧
    (runSync [recC6] [prodC6]).2.updated = 1 ∧
    (runSync [recC6] [prodC6]).1.length = 1 ∧
    (∀ p ∈ (runSync [recC6] [prodC6]).1, p.product_1c_id = some "Y" ∧ p.id = 1) := by
  decide

/-- Claim C6 (amended): each well-formed remote record is matched to an
existing local Product by the record's ARTICLE (SKU); the matched product
is updated in place (same id, same table size), or a new product is
created when no article match exists; name, price, stock quantity,
description, article AND the external identifier are all overwritten from
the record, and the created-vs-updated flag is tracked per record. -/
theorem claim_C6_amended (store : List Product) (rep : SyncReport) (r : Raw1CProduct)
    (hok : requiredPresent r = true)
    (hnc : ∀ q ∈ store, q.product_1c_id = some r.rid → q.article = some r.art) :
    ((∃ p ∈ store, p.article = some r.art) →
       (syncStep (store, rep) r).2.updated = rep.updated + 1 ∧
       (syncStep (store, rep) r).2.created = rep.created ∧
       (syncStep (store, rep) r).1.length = store.length ∧
       (∃ p ∈ store, p.article = some r.art ∧
          applyRemoteFields r.rid r.nameD r.art r.priceD r.stockD r.descD p
            ∈ (syncStep (store, rep) r).1)) ∧
    ((¬ ∃ p ∈ store, p.article = some r.art) →
       (syncStep (store, rep) r).2.created = rep.created + 1 ∧
       (syncStep (store, rep) r).2.updated = rep.updated ∧
       (syncStep (store, rep) r).1
         = store ++ [mkRemoteProduct (freshProductId store)
             r.rid r.nameD r.art r.priceD r.stockD r.descD]) ∧
    (∀ p : Product,
       (applyRemoteFields r.rid r.nameD r.art r.priceD r.stockD r.descD p).id = p.id ∧
       (applyRemoteFields r.rid r.nameD r.art r.priceD r.stockD r.descD p).name = r.nameD ∧
       (applyRemoteFields r.rid r.nameD r.art r.priceD r.stockD r.descD p).price = r.priceD ∧
       (applyRemoteFields r.rid r.nameD r.art r.priceD r.stockD r.descD p).stock_quantity
         = r.stockD ∧
       (applyRemoteFields r.rid r.nameD r.art r.priceD r.stockD r.descD p).description
         = some r.descD ∧
       (applyRemoteFields r.rid r.nameD r.art r.priceD r.stockD r.descD p).article
         = some r.art ∧
       (applyRemoteFields r.rid r.nameD r.art r.priceD r.stockD r.descD p).product_1c_id
         = some r.rid) := by
  refine ⟨?_, ?_, fun p => ⟨rfl, rfl, rfl, rfl, rfl, rfl, rfl⟩⟩
  · intro hex
    have hm : store.any (productMatches r.art) = true := any_match_of_exists store r.art hex
    have hcf : idConflictOnUpdate store r.art r.rid = false :=
      idConflict_false_of store r.art r.rid hnc
    rw [syncStep_update store rep r hok hm hcf]
    refine ⟨rfl, rfl, length_updateFirst _ _ _, ?_⟩
    rcases exists_match_updateFirst r.art
      (applyRemoteFields r.rid r.nameD r.art r.priceD r.stockD r.descD) store hm
      with ⟨p, hp, hmch, hfmem⟩
    exact ⟨p, hp, (productMatches_iff _ _).1 hmch, hfmem⟩
  · intro hnex
    have hm : store.any (productMatches r.art) = false := by
      cases hA : store.any (productMatches r.art) with
      | false => rfl
      | true =>
        rcases List.any_eq_true.1 hA with ⟨p, hp, hmch⟩
        exact absurd ⟨p, hp, (productMatches_iff _ _).1 hmch⟩ hnex
    have htk : idTaken store r.rid = false := idTaken_false_of store r.art r.rid hnc hm
    rw [syncStep_insert store rep r hok hm htk]
    exact ⟨rfl, rfl, rfl⟩

/-- Witness for the amended C6: the concrete article-"A" update. -/
theorem claim_C6_witness :
    (syncStep ([prodC6], emptyReport) recC6).2.updated = 1 ∧
    (syncStep ([prodC6], emptyReport) recC6).1.length = 1 :=
  have h := (claim_C6_amended [prodC6] emptyReport recC6 (by decide) (by decide)).1
    ⟨prodC6, List.mem_singleton.mpr rfl, by decide⟩
  ⟨h.1, h.2.2.1⟩

/-- Claim C7: a remote record missing a required field is skipped — the
product table is untouched by it — and recorded as an error entry with its
descriptive message, while the rest of the batch proceeds around it; the
report's three counters always sum to the batch size and the error list
always has one message per counted error; a fetched batch always yields a
success report (per-item failures never abort the sync), and only
transport-level failure of the fetch aborts with nothing processed. -/
theorem claim_C7_partial_failure :
    (∀ (store : List Product) (rep : SyncReport) (bad : Raw1CProduct),
       requiredPresent bad = false →
       syncStep (store, rep) bad = (store, addSkipErr rep bad)) ∧
    (∀ (pre post : List Raw1CProduct) (bad : Raw1CProduct) (store : List Product)
       (rep : SyncReport), requiredPresent bad = false →
       List.foldl syncStep (store, rep) (pre ++ bad :: post)
         = List.foldl syncStep
             ((List.foldl syncStep (store, rep) pre).1,
              addSkipErr (List.foldl syncStep (store, rep) pre).2 bad) post) ∧
    (∀ (records : List Raw1CProduct) (store : List Product),
       (runSync records store).2.created + (runSync records store).2.updated
         + (runSync records store).2.errors = records.length ∧
       (runSync records store).2.error_list.length = (runSync records store).2.errors) ∧
    (∀ (records : List Raw1CProduct) (store : List Product),
       sync_products_from_1c (.ok records) store
         = (.success (runSync records store).2, (runSync records store).1)) ∧
    (∀ (store : List Product) (m : String),
       sync_products_from_1c .timeout store = (.fetchTimeout, store) ∧
       sync_products_from_1c (.requestErr m) store = (.fetchUnavailable m, store) ∧
       sync_products_from_1c (.badJson m) store = (.fetchBadGateway m, store)) := by
  refine ⟨?_, ?_, ?_, ?_, ?_⟩
  · intro store rep bad hb
    exact syncStep_skip store rep bad hb
  · intro pre post bad store rep hb
    rw [List.foldl_append, List.foldl_cons]
    have heta : List.foldl syncStep (store, rep) pre
        = ((List.foldl syncStep (store, rep) pre).1,
           (List.foldl syncStep (store, rep) pre).2) := rfl
    rw [heta, syncStep_skip _ _ _ hb]
  · intro records store
    have h := run_counts records store emptyReport
    constructor
    · simp only [runSync]
      rw [h.1]
      simp [emptyReport]
    · simp only [runSync]
      exact h.2 rfl
  · intro records store
    rfl
  · intro store m
    exact ⟨rfl, rfl, rfl⟩

/-- Witness for C7: a record missing `price` is skipped and recorded; a
two-record batch with one malformed entry reports counters summing to 2. -/
theorem claim_C7_witness :
    (syncStep ([], emptyReport) badRecW = ([], addSkipErr emptyReport badRecW)) ∧
    ((runSync [recW1, badRecW] []).2.created + (runSync [recW1, badRecW] []).2.updated
       + (runSync [recW1, badRecW] []).2.errors = 2) :=
  ⟨claim_C7_partial_failure.1 [] emptyReport badRecW (by decide),
   (claim_C7_partial_failure.2.2.1 [recW1, badRecW] []).1⟩

/-- Claim C8: running Catalog Sync twice against an unchanged list of N
well-formed remote products (pairwise distinct articles and external ids,
over a store satisfying the unique-article constraint and free of external
id conflicts with the batch) yields created = 0 and updated = N on the
second run, and the second run creates no new Product rows. -/
theorem claim_C8_idempotence (recs : List Raw1CProduct) (store : List Product)
    (hwf : ∀ r ∈ recs, requiredPresent r = true)
    (hpw : recs.Pairwise (fun r r2 => r.art ≠ r2.art ∧ r.rid ≠ r2.rid))
    (_hsu : storeArticlesUnique store)
    (hnc : ∀ r ∈ recs, ∀ q ∈ store, q.product_1c_id = some r.rid → q.article = some r.art) :
    (runSync recs (runSync recs store).1).2.created = 0 ∧
    (runSync recs (runSync recs store).1).2.updated = recs.length ∧
    (runSync recs (runSync recs store).1).1.length = (runSync recs store).1.length := by
  simp only [runSync]
  have h1 := run1_lemma recs store emptyReport hwf hpw hnc
  have hpw2 : recs.Pairwise (fun r r2 => r.rid ≠ r2.rid) :=
    List.Pairwise.imp (fun h => h.2) hpw
  have h2 := run2_lemma recs (List.foldl syncStep (store, emptyReport) recs).1 emptyReport
    hwf hpw2 h1.1 h1.2
  refine ⟨h2.1, ?_, h2.2.2.2⟩
  rw [h2.2.1]
  simp [emptyReport]

/-- Witness for C8: two distinct well-formed records synced twice into an
empty store give created = 0 and updated = 2 on the second run. -/
theorem claim_C8_witness :
    (runSync [recW1, recW2] (runSync [recW1, recW2] []).1).2.created = 0 ∧
    (runSync [recW1, recW2] (runSync [recW1, recW2] []).1).2.updated = 2 :=
  have h := claim_C8_idempotence [recW1, recW2] []
    (by decide) (by decide) List.Pairwise.nil (by decide)
  ⟨h.1, h.2.1⟩

/-- Claim C10: Catalog Sync never deletes a local Product (every prior
row's id is still present afterwards and the table never shrinks), and a
local product matched by no processed record — its article differs from
every well-formed record's article — is left entirely unchanged, all
fields intact. -/
theorem claim_C10_no_delete_frame (recs : List Raw1CProduct) (store : List Product) :
    (∀ p ∈ store, ∃ q ∈ (runSync recs store).1, q.id = p.id) ∧
    (∀ p ∈ store, (∀ r ∈ recs, requiredPresent r = true → p.article ≠ some r.art) →
       p ∈ (runSync recs store).1) ∧
    store.length ≤ (runSync recs store).1.length := by
  simp only [runSync]
  exact ⟨fun p hp => run_id_preserved recs store emptyReport p hp,
         fun p hp hcond => run_frame recs store emptyReport p hp hcond,
         run_length_mono recs store emptyReport⟩

/-- Witness for C10: a product whose article matches no record survives a
sync entirely unchanged. -/
theorem claim_C10_witness :
    keepProd ∈ (runSync [recW1] [keepProd]).1 :=
  (claim_C10_no_delete_frame [recW1] [keepProd]).2.1 keepProd
    (List.mem_singleton.mpr rfl) (by decide)
